import Mathlib

/-!
# guardian-agent: the authorization UI and the forwarding supervisor

A shallow embedding of `ui.go` (package `guardianagent`) and of `main` in
`cmd/ssh-guard-agent/ssh-guard-agent.go`, with the properties stated for them.

Conventions of the embedding.

* A Go `string` is a Lean `String`; the helpers work on its list of characters.
  Go strings are byte sequences, so the embedding covers the strings that are valid
  UTF-8, which is what a terminal or a helper program writes.
* A Go `int` is a Lean `Int`; the platform is taken to be 64-bit and the one place
  where the width matters (`strconv.Atoi`) carries its bounds explicitly.
* A Go `error` is `Option GoError`, `none` being `nil`.
* Reads from the outside world (standard input, the helper program, `Accept()`,
  `HandleConnection`) are oracles indexed by the number of the call.
* A loop without a bound runs on fuel: `none` means that the fuel given was not
  enough, and a loop that never ends returns `none` for every amount of fuel.
-/

namespace GuardianAgent

/-! ## The Go standard library functions that the code calls -/

/-- A Go `error` value, identified by its message. -/
abbrev GoError := String

/-- The function `unicode.IsSpace`: the Latin-1 spaces `\t \n \v \f \r`, space, U+0085 and
U+00A0, and beyond Latin-1 the code points with the Unicode property `White_Space`. -/
def isSpace (c : Char) : Bool :=
  let n := c.toNat
  (9 ≤ n && n ≤ 13) || n == 32 || n == 0x85 || n == 0xA0 || n == 0x1680 ||
  (0x2000 ≤ n && n ≤ 0x200A) || n == 0x2028 || n == 0x2029 || n == 0x202F ||
  n == 0x205F || n == 0x3000

/-- The function `strings.TrimSpace`: the string without its leading and trailing white space. -/
def trimSpace (s : String) : String :=
  ⟨((s.data.dropWhile isSpace).reverse.dropWhile isSpace).reverse⟩

/-- The two kinds of `*strconv.NumError` that `strconv.Atoi` returns. -/
inductive NumError where
  | malformed
  | outOfRange
  deriving DecidableEq, Repr

/-- The largest `uint64`. -/
def maxUint64 : Nat := 2 ^ 64 - 1

/-- The digit loop of `strconv.ParseUint(s, 10, 64)`: `n` is the value read so far. A byte that
is not a decimal digit is a syntax error with value 0; an overflow of `n*10` or of `n*10 + d`
is a range error with value `maxUint64`, reported as soon as it happens. -/
def parseUintLoop : List Char → Nat → Nat × Option NumError
  | [], n => (n, none)
  | c :: cs, n =>
    if c.toNat < 48 ∨ 57 < c.toNat then (0, some NumError.malformed)
    else
      let d := c.toNat - 48
      if n ≥ maxUint64 / 10 + 1 then (maxUint64, some NumError.outOfRange)
      else
        let n1 := (n * 10 + d) % 2 ^ 64
        if n1 < n ∨ n1 > maxUint64 then (maxUint64, some NumError.outOfRange)
        else parseUintLoop cs n1

/-- The function `strconv.ParseUint(s, 10, 64)`. -/
def parseUint (cs : List Char) : Nat × Option NumError :=
  match cs with
  | [] => (0, some NumError.malformed)
  | _ => parseUintLoop cs 0

/-- The function `strconv.ParseInt(s, 10, 0)` on a 64-bit platform: an optional sign, then
`ParseUint`; a syntax error gives 0, a magnitude out of the `int64` range gives the nearest
bound together with a range error. -/
def parseInt (cs : List Char) : Int × Option NumError :=
  match cs with
  | [] => (0, some NumError.malformed)
  | c :: rest =>
    let neg := c == '-'
    let body := if c == '+' ∨ c == '-' then rest else cs
    match parseUint body with
    | (_, some NumError.malformed) => (0, some NumError.malformed)
    | (un, _) =>
      if ¬ neg ∧ un ≥ 2 ^ 63 then ((2 : Int) ^ 63 - 1, some NumError.outOfRange)
      else if neg ∧ un > 2 ^ 63 then (-(2 : Int) ^ 63, some NumError.outOfRange)
      else (if neg then -(un : Int) else (un : Int), none)

/-- The function `strconv.Atoi`: `ParseInt(s, 10, 0)` converted to `int` (the fast path that
newer releases take for short strings returns the same pairs). -/
def atoi (s : String) : Int × Option NumError :=
  parseInt s.data

/-- A decimal digit `0` to `9`. -/
def isDigit (c : Char) : Bool :=
  decide (48 ≤ c.toNat) && decide (c.toNat ≤ 57)

/-- The number that the decimal digits `cs` denote, read after the number `n`. -/
def digitsValueFrom (n : Nat) (cs : List Char) : Nat :=
  cs.foldl (fun n c => n * 10 + (c.toNat - 48)) n

/-- The integer that a text denotes in decimal: an optional sign `+` or `-`, then one or more
decimal digits; `none` for any other text. The value is not bounded. -/
def decimalInteger (s : String) : Option Int :=
  match s.data with
  | [] => none
  | c :: rest =>
    let digits := if c = '+' ∨ c = '-' then rest else c :: rest
    if digits ≠ [] ∧ digits.all isDigit = true then
      some (if c = '-' then -(digitsValueFrom 0 digits : Int) else (digitsValueFrom 0 digits : Int))
    else none

/-- The verb `%d` of `fmt.Sprintf` at a non-negative integer: its decimal digits. -/
def decimal (n : Nat) : String :=
  Nat.repr n

/-! ## `ui.go`: prompts -/

/-- The type `Prompt`. -/
structure Prompt where
  Question : String
  Choices : List String

/-- The call `fmt.Sprintf("\n    %d) %s", i+1, v)` in `formatPrompt`. -/
def choiceLine (i : Nat) (v : String) : String :=
  "\n    " ++ decimal (i + 1) ++ ") " ++ v

/-- The `for i, v := range params.Choices` loop of `formatPrompt`: `buf` is the buffer, `i` the
index of the next choice. -/
def formatPromptLoop : String → Nat → List String → String
  | buf, _, [] => buf
  | buf, i, v :: vs => formatPromptLoop (buf ++ choiceLine i v) (i + 1) vs

/-- The function `formatPrompt`. -/
def formatPrompt (params : Prompt) : String :=
  formatPromptLoop params.Question 0 params.Choices ++ "\n\nAnswer (enter a number): "

/-- The text that the specification gives for a prompt: the question, then for each `i` from
1 to `n` the line `"\n    " ++ decimal i ++ ") " ++ c_i`, then the instruction to answer. -/
def promptText (q : String) (choices : List String) : String :=
  q ++ String.join (choices.enum.map fun ic => "\n    " ++ decimal (ic.1 + 1) ++ ") " ++ ic.2)
    ++ "\n\nAnswer (enter a number): "


/-! ## `ui.go`: the plain terminal backend and the helper backend -/

/-- What a call of `Ask` does that can be seen from outside: it prints a text on standard
output, reads a line from standard input, or runs the helper `ssh-askpass` with one argument. -/
inductive UIEvent where
  | print (text : String)
  | read (line : String)
  | helper (arg : String)
  deriving DecidableEq, Repr

/-- The variables of the loop of `Ask`: `reply`, `convErr`, and with them the number of
responses consumed and the events so far. -/
structure AskState where
  reply : Int
  convErr : Option NumError
  reads : Nat
  trace : List UIEvent
  deriving DecidableEq, Repr

/-- The values a call of `Ask` returns, `reply` and `err`, with the number of responses it
consumed and its events. -/
structure AskResult where
  reply : Int
  err : Option GoError
  reads : Nat
  trace : List UIEvent
  deriving DecidableEq, Repr

/-- The state in which the loop of `Ask` starts: `reply = -1`, `convErr = nil`. -/
def askInit : AskState :=
  { reply := -1, convErr := none, reads := 0, trace := [] }

/-- The loop condition `convErr != nil || reply <= 0 || reply > len(params.Choices)`. -/
def askAgain (params : Prompt) (st : AskState) : Bool :=
  st.convErr.isSome || decide (st.reply ≤ 0) || decide (st.reply > (params.Choices.length : Int))

/-- The loop of `TerminalUI.Ask`. `stdin i` is what the `i`-th `ReadString` returns (its error
is dropped by the code). One unit of fuel pays one test of the loop condition. -/
def TerminalUI.askLoop (params : Prompt) (stdin : Nat → String) : Nat → AskState → Option AskResult
  | 0, _ => none
  | fuel + 1, st =>
    if askAgain params st then
      let sReply := stdin st.reads
      let r := atoi (trimSpace sReply)
      TerminalUI.askLoop params stdin fuel
        { reply := r.1, convErr := r.2, reads := st.reads + 1,
          trace := st.trace ++ [UIEvent.print (formatPrompt params), UIEvent.read sReply] }
    else
      some { reply := st.reply, err := none, reads := st.reads, trace := st.trace }

/-- The method `TerminalUI.Ask`. -/
def TerminalUI.Ask (params : Prompt) (stdin : Nat → String) (fuel : Nat) : Option AskResult :=
  TerminalUI.askLoop params stdin fuel askInit

/-- The pair `cmd.Output()` returns: the standard output of the helper and the error. -/
structure HelperOutcome where
  out : String
  err : Option GoError
  deriving DecidableEq, Repr

/-- The loop of `AskPassUI.Ask`. `helper i arg` is the outcome of the `i`-th run of
`ssh-askpass` when it is given `arg`. -/
def AskPassUI.askLoop (params : Prompt) (helper : Nat → String → HelperOutcome) :
    Nat → AskState → Option AskResult
  | 0, _ => none
  | fuel + 1, st =>
    if askAgain params st then
      let arg := formatPrompt params
      let o := helper st.reads arg
      let trace := st.trace ++ [UIEvent.helper arg]
      match o.err with
      | some e => some { reply := st.reply, err := some e, reads := st.reads + 1, trace := trace }
      | none =>
        let r := atoi (trimSpace o.out)
        AskPassUI.askLoop params helper fuel
          { reply := r.1, convErr := r.2, reads := st.reads + 1, trace := trace }
    else
      some { reply := st.reply, err := none, reads := st.reads, trace := st.trace }

/-- The method `AskPassUI.Ask`. -/
def AskPassUI.Ask (params : Prompt) (helper : Nat → String → HelperOutcome) (fuel : Nat) :
    Option AskResult :=
  AskPassUI.askLoop params helper fuel askInit

/-- The ASCII branch of `unicode.ToLower`: `if 'A' <= r && r <= 'Z' { r += 'a' - 'A' }`. -/
def asciiLower (c : Char) : Char :=
  if 65 ≤ c.toNat ∧ c.toNat ≤ 90 then Char.ofNat (c.toNat + 32) else c

/-- The function `unicode.ToLower`: the ASCII letters are handled in place, every other rune
goes through the case table of the Unicode data, here `table`. -/
def toLowerRune (table : Char → Char) (c : Char) : Char :=
  if c.toNat ≤ 127 then asciiLower c else table c

/-- The function `strings.ToLower`: `unicode.ToLower` on every rune. -/
def toLower (table : Char → Char) (s : String) : String :=
  ⟨s.data.map (toLowerRune table)⟩

/-- The method `AskPassUI.Confirm`. `helper arg` is the outcome of running `ssh-askpass` with
`arg`. -/
def AskPassUI.Confirm (table : Char → Char) (helper : String → HelperOutcome) (msg : String) :
    Bool :=
  let o := helper msg
  match o.err with
  | some _ => false
  | none =>
    let outStr := toLower table (trimSpace o.out)
    outStr.length == 0 || outStr == "yes"

/-- A response that ends the loop of `Ask`: trimmed, it parses as an integer from 1 to the
number of choices. -/
def validAnswer (params : Prompt) (response : String) : Prop :=
  (atoi (trimSpace response)).2 = none ∧ 1 ≤ (atoi (trimSpace response)).1 ∧
    (atoi (trimSpace response)).1 ≤ (params.Choices.length : Int)

instance (params : Prompt) (response : String) : Decidable (validAnswer params response) := by
  unfold validAnswer; infer_instance

/-- The texts that are "yes" up to the case of the letters. -/
def yesIgnoringCase (s : String) : Prop :=
  s ∈ ["yes", "yeS", "yEs", "yES", "Yes", "YeS", "YEs", "YES"]

instance (s : String) : Decidable (yesIgnoringCase s) := by
  unfold yesIgnoringCase; infer_instance

/-- The part of the Unicode case table that the examples use: the Kelvin sign and the dotted
capital I are the two runes outside ASCII whose lower case is an ASCII letter. -/
def sampleLowerTable (c : Char) : Char :=
  if c.toNat = 0x212A then 'k' else if c.toNat = 0x130 then 'i' else c

/-- The variables of the loop of `Ask` after `i` turns that all went on to the next one:
`resp i` is the text parsed in turn `i` and `ev i` the events of that turn. -/
def stateAfter (resp : Nat → String) (ev : Nat → List UIEvent) : Nat → AskState
  | 0 => askInit
  | i + 1 =>
    { reply := (atoi (trimSpace (resp i))).1, convErr := (atoi (trimSpace (resp i))).2,
      reads := i + 1, trace := (stateAfter resp ev i).trace ++ ev i }

/-- The events of one turn of `TerminalUI.Ask`: the prompt is printed, then a line is read. -/
def terminalTurn (params : Prompt) (stdin : Nat → String) (i : Nat) : List UIEvent :=
  [UIEvent.print (formatPrompt params), UIEvent.read (stdin i)]

/-- The events of one turn of `AskPassUI.Ask`: the helper is run on the formatted prompt. -/
def helperTurn (params : Prompt) (_ : Nat) : List UIEvent :=
  [UIEvent.helper (formatPrompt params)]

/-- A prompt with two choices, for the examples. -/
def samplePrompt : Prompt :=
  { Question := "Allow?", Choices := ["Yes", "No"] }

/-- Standard input for the examples: a word, a number out of range, then `2` between spaces. -/
def sampleStdin (i : Nat) : String :=
  if i = 0 then "abc\n" else if i = 1 then "7\n" else " 2 \n"

/-- The standard output of the `i`-th run of the helper in `AskPassUI.Ask`. -/
def helperOut (params : Prompt) (helper : Nat → String → HelperOutcome) (i : Nat) : String :=
  (helper i (formatPrompt params)).out

/-- The error of the `i`-th run of the helper in `AskPassUI.Ask`. -/
def helperErr (params : Prompt) (helper : Nat → String → HelperOutcome) (i : Nat) :
    Option GoError :=
  (helper i (formatPrompt params)).err

/-- A helper for the examples: it answers `0`, then `5`, then fails. -/
def sampleFailingHelper (i : Nat) (_ : String) : HelperOutcome :=
  if i = 0 then { out := "0\n", err := none }
  else if i = 1 then { out := "5\n", err := none }
  else { out := "", err := some "exit status 1" }

/-- A helper for the examples: it answers with a word, then with `1`. -/
def sampleHelper (i : Nat) (_ : String) : HelperOutcome :=
  if i = 0 then { out := "maybe\n", err := none } else { out := "1\n", err := none }

/-! ## `ssh-guard-agent.go`: `main` up to the accept loop -/

/-- The verb `%d` of `fmt.Sprintf` at an integer. -/
def decimalInt (i : Int) : String :=
  if i < 0 then "-" ++ decimal i.natAbs else decimal i.toNat

/-- The call `strings.Split(s, sep)` for a separator of one character, on the characters of
`s`: the pieces between the occurrences of the separator, one more than there are occurrences. -/
def splitChars (sep : Char) : List Char → List (List Char)
  | [] => [[]]
  | c :: cs =>
    if c = sep then [] :: splitChars sep cs
    else
      match splitChars sep cs with
      | [] => [[c]]
      | piece :: pieces => (c :: piece) :: pieces

/-- The call `strings.Split(s, "@")`. -/
def splitAtSign (s : String) : List String :=
  (splitChars '@' s.data).map String.mk

/-- The user and host that `main` takes from its first positional argument: with
`userHost := strings.Split(arg, "@")`, the elements 0 and 1 of `userHost` when it has more than
one, else the name of the current user and element 0 (`strings.Split` never returns an empty
slice here, see `splitChars_ne_nil`; the last case stands for the index panic). -/
def resolveTarget (arg : String) (curUsername : String) : String × String :=
  match splitAtSign arg with
  | user :: host :: _ => (user, host)
  | [host] => (curUsername, host)
  | [] => (curUsername, "")

/-- The values of the command-line flags after `flag.Parse()`, with the positional arguments. -/
structure Flags where
  debug : Bool := false
  port : Int := 22
  sshCmd : String := "ssh"
  sshArgs : String := ""
  delegatedClient : Bool := false
  forwardAgent : Bool := false
  noCommand : Bool := false
  policyConfig : String := "$HOME/.ssh/agent_policies"
  remoteStubName : String := "sshfwdstub"
  promptType : String := ""
  logFile : String := ""
  args : List String := []

/-- The prompt kinds `agent.Terminal` and `agent.Display`. -/
inductive PromptKind where
  | Terminal
  | Display
  deriving DecidableEq, Repr

/-- The outcome of `client.DelegatedClient.Run`: nil, an `*ssh.ExitError` with its message and
exit status (and its text as an error), or another error. -/
inductive DelegatedResult where
  | ok
  | exitError (text : GoError) (msg : String) (status : Int)
  | failed (err : GoError)
  deriving DecidableEq, Repr

/-- The value of type `sshfwd.SSHFwd` that `main` builds. -/
structure SSHFwd where
  SSHCmd : String
  SSHArgs : List String
  Host : String
  Port : Int
  Username : String
  RemoteStubName : String
  deriving DecidableEq, Repr

/-- What `main` reads from outside and what the packages it calls answer. -/
structure Env where
  /-- The error of `os.OpenFile(logFile, ...)`. -/
  openLog : String → Option GoError
  /-- The result of `user.Current()`: the user name or the error. -/
  currentUser : Except GoError String
  /-- The value of `os.Getenv("DISPLAY")`. -/
  display : String
  /-- The function `os.ExpandEnv`. -/
  expandEnv : String → String
  /-- The error of `agent.New`. -/
  agentNew : String → PromptKind → Option GoError
  /-- The result of `shellquote.Split`. -/
  shellSplit : String → Except GoError (List String)
  /-- The error of `SSHFwd.SetupForwarding`. -/
  setupForwarding : SSHFwd → Option GoError
  /-- The outcome of `DelegatedClient.Run` for a host and port, a user and a command. -/
  delegatedRun : String → String → String → DelegatedResult

/-- What `main` does that can be seen from outside, before the accept loop. -/
inductive Event where
  | usage
  | stderr (text : String)
  | log (text : String)
  | delegatedRun (hostPort username cmd : String)
  | agentNew (policyConfig : String) (kind : PromptKind)
  | setupForwarding (fwd : SSHFwd)
  deriving DecidableEq, Repr

/-- How the part of `main` before the accept loop ends: the process exits with a status, `main`
returns, or it enters the accept loop. -/
inductive Ending where
  | exit (status : Int)
  | returned
  | acceptLoop (fwd : SSHFwd) (noCommand : Bool) (cmd : String)
  deriving DecidableEq, Repr

/-- A run of `main` before the accept loop: its events in order and its ending. -/
structure Run where
  events : List Event
  ending : Ending
  deriving DecidableEq, Repr

/-- The call `log.Fatalf(msg)`: the message goes to the logger, then `os.Exit(1)`. -/
def logFatalf (events : List Event) (msg : String) : Run :=
  { events := events ++ [Event.log msg], ending := Ending.exit 1 }

/-- The branch `if delegatedClient { ... }` of `main`. -/
def mainDelegated (f : Flags) (env : Env) (events : List Event) (host username cmd : String) :
    Run :=
  if f.sshCmd ≠ "ssh" then
    logFatalf events "--ssh flag not supported when running in delegated mode (-d)"
  else if f.forwardAgent then
    logFatalf events "agent forwarding (-A) is not supported in delegated mode (-d)"
  else if f.noCommand then
    logFatalf events "no command (-N) is not supported in delegated mode (-d)"
  else
    let hostPort := host ++ ":" ++ decimalInt f.port
    let events := events ++ [Event.delegatedRun hostPort username cmd]
    match env.delegatedRun hostPort username cmd with
    | DelegatedResult.ok => { events := events, ending := Ending.returned }
    | DelegatedResult.exitError text msg status =>
      let events := events ++ [Event.log text]
      let events := if msg ≠ "" then events ++ [Event.stderr (msg ++ "\n")] else events
      { events := events, ending := Ending.exit status }
    | DelegatedResult.failed err =>
      { events := events ++ [Event.log err, Event.stderr (err ++ "\n")],
        ending := Ending.exit 255 }

/-- The branch `if forwardAgent { ... }` of `main`, up to the accept loop. -/
def mainForward (f : Flags) (env : Env) (events : List Event) (host username cmd : String) :
    Run :=
  let policyConfig := env.expandEnv f.policyConfig
  let chosen : Except Run (List Event × PromptKind) :=
    if f.noCommand ∧ f.promptType ≠ "DISPLAY" then
      Except.ok (events ++ [Event.agentNew policyConfig PromptKind.Terminal],
        PromptKind.Terminal)
    else if env.display = "" then
      Except.error
        { events := events ++ [Event.stderr ("DISPLAY must be set for user prompts.\n" ++
            "Either set the DISPLAY environment variable or use -N.")],
          ending := Ending.exit 255 }
    else
      Except.ok (events ++ [Event.agentNew policyConfig PromptKind.Display],
        PromptKind.Display)
  match chosen with
  | Except.error run => run
  | Except.ok (events, kind) =>
    match env.agentNew policyConfig kind with
    | some err => { events := events ++ [Event.stderr err], ending := Ending.exit 255 }
    | none =>
      match env.shellSplit f.sshArgs with
      | Except.error err =>
        { events := events ++ [Event.stderr ("Failed to parse ssh_args: " ++ err)],
          ending := Ending.exit 255 }
      | Except.ok sshArgsArray =>
        let sshFwd : SSHFwd :=
          { SSHCmd := f.sshCmd, SSHArgs := sshArgsArray, Host := host, Port := f.port,
            Username := username, RemoteStubName := f.remoteStubName }
        let events := events ++ [Event.setupForwarding sshFwd]
        match env.setupForwarding sshFwd with
        | some err => { events := events ++ [Event.stderr err], ending := Ending.exit 255 }
        | none => { events := events, ending := Ending.acceptLoop sshFwd f.noCommand cmd }

/-- The function `main`, up to the accept loop. -/
def main (f : Flags) (env : Env) : Run :=
  match f.args with
  | [] => { events := [Event.usage], ending := Ending.exit 255 }
  | arg :: rest =>
    let logOpened : Option GoError :=
      if f.debug ∧ f.logFile ≠ "" then env.openLog f.logFile else none
    match logOpened with
    | some err =>
      { events := [Event.stderr ("Failed to open log file: " ++ err)], ending := Ending.exit 255 }
    | none =>
      match env.currentUser with
      | Except.error err => logFatalf [] ("Failed to get current user: " ++ err)
      | Except.ok curUsername =>
        let target := resolveTarget arg curUsername
        let username := target.1
        let host := target.2
        let cmd := if rest.length ≥ 1 then String.intercalate " " rest else ""
        let events := [Event.log ("Host: " ++ host ++ ", Port: " ++ decimalInt f.port ++
          ", User: " ++ username ++ "\n")]
        if f.delegatedClient then mainDelegated f env events host username cmd
        else if f.forwardAgent then mainForward f env events host username cmd
        else { events := events, ending := Ending.returned }

/-- An environment for the examples: the current user is `alice`, `DISPLAY` has the given value,
and every call to another package succeeds. -/
def sampleEnv (display : String) : Env :=
  { openLog := fun _ => none, currentUser := Except.ok "alice", display := display,
    expandEnv := fun s => s, agentNew := fun _ _ => none,
    shellSplit := fun _ => Except.ok [], setupForwarding := fun _ => none,
    delegatedRun := fun _ _ _ => DelegatedResult.ok }

/-! ## `ssh-guard-agent.go`: the accept loop and its workers

The loop of `main`, the worker that runs the remote command and the handler workers run
concurrently and share the variables `c`, `err` and `done`. A state holds the shared variables
and the position of every thread; a step is one thread doing its next action; a schedule is
the list of the threads that step, in order. -/

/-- A `net.Conn`, identified by a number; `none` is the nil connection. -/
abbrev Conn := Nat

/-- What the forwarding channel and the policy agent answer. -/
structure Oracle where
  /-- The pair `sshFwd.Accept()` returns at its `i`-th call. -/
  accept : Nat → Option Conn × Option GoError
  /-- The error `ag.HandleConnection(c)` returns for the connection it is given. -/
  handle : Option Conn → Option GoError

/-- Where the loop of `main` stands: before `c, err = sshFwd.Accept()`, before
`if err != nil`, after `break`, or after `os.Exit`. -/
inductive LoopPc where
  | accept
  | test
  | left
  | exited (status : Int)
  deriving DecidableEq, Repr

/-- Where a handler worker `go func() { if err = ag.HandleConnection(c); err != nil {...} }()`
stands: before the call (which reads `c`), before the assignment to `err` of the result of the
call, before the test `err != nil`, or at its end. -/
inductive HandlerPc where
  | call
  | store (result : Option GoError)
  | test
  | finished
  deriving DecidableEq, Repr

/-- Where the command worker `go func() { sshFwd.Run(cmd); done = true; sshFwd.Close() }()`
stands; `absent` when `-N` is set and the worker is not started. -/
inductive WorkerPc where
  | absent
  | running
  | setDone
  | close
  | finished
  deriving DecidableEq, Repr

/-- The shared variables `c`, `err`, `done`, the position of every thread, the number of calls
of `Accept()` so far, the lines given to the logger and the connections given to
`HandleConnection`. -/
structure LoopState where
  c : Option Conn
  err : Option GoError
  done : Bool
  loop : LoopPc
  accepts : Nat
  handlers : List HandlerPc
  worker : WorkerPc
  log : List String
  handled : List (Option Conn)
  deriving DecidableEq, Repr

/-- A thread: the loop of `main`, the command worker, or the handler started for the `i`-th
connection accepted. -/
inductive Thread where
  | loop
  | worker
  | handler (i : Nat)
  deriving DecidableEq, Repr

/-- The state in which `main` enters the accept loop: `SetupForwarding` has returned nil into
`err`, `done` is false, `c` is nil, and the command worker is started unless `-N` is set. -/
def loopInit (noCommand : Bool) : LoopState :=
  { c := none, err := none, done := false, loop := LoopPc.accept, accepts := 0, handlers := [],
    worker := if noCommand then WorkerPc.absent else WorkerPc.running, log := [], handled := [] }

/-- The next action of the loop of `main`. -/
def stepLoop (o : Oracle) (s : LoopState) : Option LoopState :=
  match s.loop with
  | LoopPc.accept =>
    some { s with c := (o.accept s.accepts).1, err := (o.accept s.accepts).2,
                  accepts := s.accepts + 1, loop := LoopPc.test }
  | LoopPc.test =>
    match s.err with
    | some e =>
      if s.done then some { s with loop := LoopPc.left }
      else some { s with log := s.log ++ ["Error forwarding: " ++ e], loop := LoopPc.exited 255 }
    | none => some { s with handlers := s.handlers ++ [HandlerPc.call], loop := LoopPc.accept }
  | LoopPc.left => none
  | LoopPc.exited _ => none

/-- The next action of the command worker. -/
def stepWorker (s : LoopState) : Option LoopState :=
  match s.worker with
  | WorkerPc.running => some { s with worker := WorkerPc.setDone }
  | WorkerPc.setDone => some { s with done := true, worker := WorkerPc.close }
  | WorkerPc.close => some { s with worker := WorkerPc.finished }
  | WorkerPc.absent => none
  | WorkerPc.finished => none

/-- The next action of the handler worker number `i`. -/
def stepHandler (o : Oracle) (i : Nat) (s : LoopState) : Option LoopState :=
  match s.handlers.get? i with
  | some HandlerPc.call =>
    some { s with handlers := s.handlers.set i (HandlerPc.store (o.handle s.c)),
                  handled := s.handled ++ [s.c] }
  | some (HandlerPc.store result) =>
    some { s with err := result, handlers := s.handlers.set i HandlerPc.test }
  | some HandlerPc.test =>
    match s.err with
    | some e =>
      some { s with log := s.log ++ ["Error forwarding: " ++ e],
                    handlers := s.handlers.set i HandlerPc.finished }
    | none => some { s with handlers := s.handlers.set i HandlerPc.finished }
  | some HandlerPc.finished => none
  | none => none

/-- One step of a thread; no thread steps once `main` has left the loop or the process has
exited. -/
def step (o : Oracle) (t : Thread) (s : LoopState) : Option LoopState :=
  match s.loop with
  | LoopPc.left => none
  | LoopPc.exited _ => none
  | _ =>
    match t with
    | Thread.loop => stepLoop o s
    | Thread.worker => stepWorker s
    | Thread.handler i => stepHandler o i s

/-- The state after a schedule, `none` when a thread of the schedule cannot step. -/
def runSchedule (o : Oracle) : List Thread → LoopState → Option LoopState
  | [], s => some s
  | t :: ts, s =>
    match step o t s with
    | some s' => runSchedule o ts s'
    | none => none

/-- A channel on which every `Accept()` succeeds, and an agent that fails on connection 0. -/
def handlerFailsOracle : Oracle :=
  { accept := fun i => (some i, none),
    handle := fun c => if c = some 0 then some "agent: connection 0 failed" else none }

/-- A channel whose second `Accept()` fails, and an agent that never fails. -/
def acceptFailsOracle : Oracle :=
  { accept := fun i => if i = 1 then (none, some "channel closed") else (some i, none),
    handle := fun _ => none }

/-- The handler of the first connection calls `HandleConnection`, the loop accepts the next
connection, the handler stores its result into `err`, the loop tests `err`. -/
def raceSchedule : List Thread :=
  [Thread.loop, Thread.loop, Thread.handler 0, Thread.loop, Thread.handler 0, Thread.loop]

/-! # Theorems -/

/-! ### Properties of `formatPrompt` -/

/-- Folding `++` over a list of strings from `acc` puts the joined list after `acc`. -/
theorem foldl_append_eq_join (l : List String) (acc : String) :
    List.foldl (fun r s => r ++ s) acc l = acc ++ String.join l := by
  induction l generalizing acc with
  | nil => simp [String.join]
  | cons x xs ih =>
    simp only [List.foldl_cons, String.join]
    rw [ih, ih ("" ++ x)]
    simp [String.append_assoc]

/-- Joining a list of strings that starts with `x`. -/
theorem join_cons_eq (x : String) (xs : List String) :
    String.join (x :: xs) = x ++ String.join xs := by
  show List.foldl (fun r s => r ++ s) "" (x :: xs) = _
  rw [List.foldl_cons, foldl_append_eq_join]
  simp

/-- The loop of `formatPrompt` appends one numbered line per choice to the buffer. -/
theorem formatPromptLoop_eq (vs : List String) (buf : String) (i : Nat) :
    formatPromptLoop buf i vs =
      buf ++ String.join ((vs.enumFrom i).map fun ic =>
        "\n    " ++ decimal (ic.1 + 1) ++ ") " ++ ic.2) := by
  induction vs generalizing buf i with
  | nil => simp [formatPromptLoop, String.join]
  | cons v vs ih =>
    rw [formatPromptLoop, ih, List.enumFrom_cons, List.map_cons, join_cons_eq]
    simp [choiceLine, String.append_assoc]

/-- C10: for every prompt with question `q` and choices `c_1 .. c_n`, `formatPrompt` returns
exactly `q`, then for each `i` from 1 to `n` in order the line
`"\n    " ++ decimal i ++ ") " ++ c_i`, then `"\n\nAnswer (enter a number): "`. -/
theorem formatPrompt_eq_promptText (params : Prompt) :
    formatPrompt params = promptText params.Question params.Choices := by
  simp [formatPrompt, promptText, formatPromptLoop_eq, List.enum]

/-! ### `strconv.Atoi` and decimal integers -/

/-- Reading more digits does not make the number smaller. -/
theorem le_digitsValueFrom (cs : List Char) (n : Nat) : n ≤ digitsValueFrom n cs := by
  induction cs generalizing n with
  | nil => exact le_refl n
  | cons c cs ih =>
    have := ih (n * 10 + (c.toNat - 48))
    simp only [digitsValueFrom, List.foldl_cons] at this ⊢
    omega

/-- On decimal digits the loop of `ParseUint` returns the number they denote, or a range error
when that number is beyond `maxUint64`. -/
theorem parseUintLoop_digits (cs : List Char) (n : Nat) (hd : ∀ c ∈ cs, isDigit c = true)
    (hn : n ≤ maxUint64) :
    parseUintLoop cs n =
      if digitsValueFrom n cs ≤ maxUint64 then (digitsValueFrom n cs, none)
      else (maxUint64, some NumError.outOfRange) := by
  have hmax : maxUint64 = 18446744073709551615 := by norm_num [maxUint64]
  induction cs generalizing n with
  | nil => simp [parseUintLoop, digitsValueFrom, hn]
  | cons c cs ih =>
    have hc := hd c (List.mem_cons_self _ _)
    simp only [isDigit, Bool.and_eq_true, decide_eq_true_eq] at hc
    have hcs : ∀ c ∈ cs, isDigit c = true := fun c hm => hd c (List.mem_cons_of_mem _ hm)
    have hmono := le_digitsValueFrom cs (n * 10 + (c.toNat - 48))
    have hval : digitsValueFrom n (c :: cs) = digitsValueFrom (n * 10 + (c.toNat - 48)) cs := rfl
    rw [parseUintLoop, hval]
    have h1 : ¬ (c.toNat < 48 ∨ 57 < c.toNat) := by omega
    rw [if_neg h1]
    simp only []
    by_cases h2 : n ≥ maxUint64 / 10 + 1
    · rw [if_pos h2, if_neg (by rw [hmax] at h2 ⊢; omega)]
    · rw [if_neg h2]
      rw [hmax] at h2 hn
      by_cases h3 : n * 10 + (c.toNat - 48) < 2 ^ 64
      · have hmod : (n * 10 + (c.toNat - 48)) % 2 ^ 64 = n * 10 + (c.toNat - 48) :=
          Nat.mod_eq_of_lt h3
        rw [hmod, if_neg (by rw [hmax]; norm_num at h3; omega)]
        exact ih _ hcs (by rw [hmax]; norm_num at h3; omega)
      · have hmod : (n * 10 + (c.toNat - 48)) % 2 ^ 64 = n * 10 + (c.toNat - 48) - 2 ^ 64 := by
          norm_num at h3 ⊢
          omega
        rw [hmod, if_pos (by norm_num at h3 ⊢; omega), if_neg (by rw [hmax]; norm_num at h3; omega)]

/-- On a text with a character that is not a decimal digit the loop of `ParseUint` returns an
error. -/
theorem parseUintLoop_not_digits (cs : List Char) (n : Nat) (hd : ∃ c ∈ cs, isDigit c = false) :
    (parseUintLoop cs n).2 ≠ none := by
  induction cs generalizing n with
  | nil => simp at hd
  | cons c cs ih =>
    rw [parseUintLoop]
    by_cases h1 : c.toNat < 48 ∨ 57 < c.toNat
    · simp [h1]
    · rw [if_neg h1]
      simp only []
      split_ifs
      · simp
      · simp
      · apply ih
        obtain ⟨c', hm, hc'⟩ := hd
        rcases List.mem_cons.mp hm with rfl | hm
        · simp only [isDigit, Bool.and_eq_false_iff, decide_eq_false_iff_not] at hc'
          omega
        · exact ⟨c', hm, hc'⟩

/-- A range error of the loop of `ParseUint` comes with the value `maxUint64`. -/
theorem parseUintLoop_outOfRange (cs : List Char) (n : Nat)
    (h : (parseUintLoop cs n).2 = some NumError.outOfRange) :
    (parseUintLoop cs n).1 = maxUint64 := by
  induction cs generalizing n with
  | nil => simp [parseUintLoop] at h
  | cons c cs ih =>
    rw [parseUintLoop] at h ⊢
    dsimp only at h ⊢
    split_ifs at h ⊢
    · simp at h
    · rfl
    · rfl
    · exact ih _ h

/-- What `ParseUint` returns: the number that the digits denote, a range error with
`maxUint64`, or on a text that is not made of digits a range error or a syntax error. -/
theorem parseUint_cases (cs : List Char) :
    (cs ≠ [] ∧ cs.all isDigit = true ∧ digitsValueFrom 0 cs ≤ maxUint64 ∧
        parseUint cs = (digitsValueFrom 0 cs, none)) ∨
    (cs ≠ [] ∧ cs.all isDigit = true ∧ maxUint64 < digitsValueFrom 0 cs ∧
        parseUint cs = (maxUint64, some NumError.outOfRange)) ∨
    (¬ (cs ≠ [] ∧ cs.all isDigit = true) ∧
        (parseUint cs = (maxUint64, some NumError.outOfRange) ∨
          (parseUint cs).2 = some NumError.malformed)) := by
  cases cs with
  | nil => right; right; simp [parseUint]
  | cons c cs =>
    have hp : parseUint (c :: cs) = parseUintLoop (c :: cs) 0 := rfl
    by_cases hall : (c :: cs).all isDigit = true
    · have hd : ∀ x ∈ c :: cs, isDigit x = true := List.all_eq_true.mp hall
      have h := parseUintLoop_digits (c :: cs) 0 hd (Nat.zero_le _)
      by_cases hv : digitsValueFrom 0 (c :: cs) ≤ maxUint64
      · left
        rw [if_pos hv] at h
        exact ⟨by simp, hall, hv, hp.trans h⟩
      · right; left
        rw [if_neg hv] at h
        exact ⟨by simp, hall, by omega, hp.trans h⟩
    · right; right
      refine ⟨fun h => hall h.2, ?_⟩
      have hex : ∃ x ∈ c :: cs, isDigit x = false := by
        by_contra hne
        push_neg at hne
        exact hall (List.all_eq_true.mpr (fun x hx => by simpa using hne x hx))
      have hne := parseUintLoop_not_digits (c :: cs) 0 hex
      rw [hp]
      cases he : (parseUintLoop (c :: cs) 0).2 with
      | none => exact absurd he hne
      | some e =>
        cases e with
        | malformed => right; rfl
        | outOfRange =>
          left
          have h1 := parseUintLoop_outOfRange (c :: cs) 0 he
          exact Prod.ext h1 he

/-- The function `strconv.Atoi` returns `v` without an error exactly on the texts that denote, in
decimal, an integer `v` of the `int64` range. -/
theorem atoi_eq_iff (s : String) (v : Int) :
    atoi s = (v, none) ↔
      decimalInteger s = some v ∧ -(2 : Int) ^ 63 ≤ v ∧ v ≤ (2 : Int) ^ 63 - 1 := by
  have hmax : maxUint64 = 18446744073709551615 := by norm_num [maxUint64]
  unfold atoi decimalInteger
  cases hs : s.data with
  | nil => simp [parseInt]
  | cons c rest =>
    simp only [parseInt]
    have hbody : (if (c == '+') = true ∨ (c == '-') = true then rest else c :: rest) =
        (if c = '+' ∨ c = '-' then rest else c :: rest) := by simp
    rw [hbody]
    generalize (if c = '+' ∨ c = '-' then rest else c :: rest) = body
    rcases parseUint_cases body with ⟨h1, h2, h3, h4⟩ | ⟨h1, h2, h3, h4⟩ | ⟨h1, h4 | h4⟩
    · rw [h4, if_pos ⟨h1, h2⟩]
      rw [hmax] at h3
      by_cases hneg : c = '-'
      · simp only [hneg, beq_self_eq_true, not_true_eq_false, false_and, if_false, true_and,
          if_true, Option.some.injEq]
        split_ifs with h5
        · simp only [Prod.mk.injEq, reduceCtorEq, and_false, false_iff, not_and]
          intro hv
          omega
        · simp only [Prod.mk.injEq, and_true]
          constructor
          · intro hv; refine ⟨hv, ?_, ?_⟩ <;> omega
          · intro hv; exact hv.1
      · have hb : (c == '-') = false := by simpa using hneg
        simp only [hb, hneg, Bool.false_eq_true, not_false_eq_true, true_and, false_and,
          if_false, Option.some.injEq]
        split_ifs with h5
        · simp only [Prod.mk.injEq, reduceCtorEq, and_false, false_iff, not_and]
          intro hv
          omega
        · simp only [Prod.mk.injEq, and_true]
          constructor
          · intro hv; refine ⟨hv, ?_, ?_⟩ <;> omega
          · intro hv; exact hv.1
    · rw [h4, if_pos ⟨h1, h2⟩]
      rw [hmax] at h3 ⊢
      by_cases hneg : c = '-'
      · simp only [hneg, beq_self_eq_true, not_true_eq_false, false_and, if_false, true_and,
          if_true, Option.some.injEq]
        norm_num
        refine ⟨fun h => absurd h.2 (by simp), fun h => ?_⟩
        obtain ⟨hv, h5, h6⟩ := h
        omega
      · have hb : (c == '-') = false := by simpa using hneg
        simp only [hb, hneg, Bool.false_eq_true, not_false_eq_true, true_and, false_and,
          if_false, Option.some.injEq]
        norm_num
        refine ⟨fun h => absurd h.2 (by simp), fun h => ?_⟩
        obtain ⟨hv, h5, h6⟩ := h
        omega
    · rw [h4, if_neg h1, hmax]
      by_cases hneg : c = '-'
      · simp [hneg]
      · have hb : (c == '-') = false := by simpa using hneg
        simp [hb]
    · rw [if_neg h1]
      rcases hp : parseUint body with ⟨un, e⟩
      rw [hp] at h4
      have h4' : e = some NumError.malformed := h4
      subst h4'
      simp

/-- A response is a valid answer exactly when, trimmed, it denotes in decimal an integer from 1
to the number of choices (which, being the length of a Go slice, is below `2 ^ 63`). -/
theorem validAnswer_iff_decimalInteger (params : Prompt) (response : String)
    (hlen : params.Choices.length < 2 ^ 63) :
    validAnswer params response ↔
      ∃ v, decimalInteger (trimSpace response) = some v ∧ 1 ≤ v ∧
        v ≤ (params.Choices.length : Int) := by
  have hlen' : (params.Choices.length : Int) < 2 ^ 63 := by exact_mod_cast hlen
  constructor
  · rintro ⟨h1, h2, h3⟩
    have h : atoi (trimSpace response) = ((atoi (trimSpace response)).1, none) :=
      Prod.ext rfl h1
    exact ⟨_, ((atoi_eq_iff _ _).mp h).1, h2, h3⟩
  · rintro ⟨v, hv, h2, h3⟩
    have h : atoi (trimSpace response) = (v, none) :=
      (atoi_eq_iff _ _).mpr ⟨hv, by omega, by omega⟩
    unfold validAnswer
    rw [h]
    exact ⟨rfl, h2, h3⟩

/-! ### The loop of `Ask` -/

theorem stateAfter_reads (resp : Nat → String) (ev : Nat → List UIEvent) (i : Nat) :
    (stateAfter resp ev i).reads = i := by
  cases i <;> rfl

theorem stateAfter_trace (resp : Nat → String) (ev : Nat → List UIEvent) (i : Nat) :
    (stateAfter resp ev i).trace = (List.range i).flatMap ev := by
  induction i with
  | zero => rfl
  | succ i ih => simp [stateAfter, ih, List.range_succ, List.flatMap_append]

/-- The loop condition after a turn holds exactly when the text of the turn is not a valid
answer. -/
theorem askAgain_stateAfter_succ (params : Prompt) (resp : Nat → String)
    (ev : Nat → List UIEvent) (i : Nat) :
    askAgain params (stateAfter resp ev (i + 1)) = true ↔ ¬ validAnswer params (resp i) := by
  simp only [askAgain, stateAfter, validAnswer, Bool.or_eq_true, decide_eq_true_eq]
  generalize atoi (trimSpace (resp i)) = r
  obtain ⟨v, e⟩ := r
  cases e with
  | some e => simp
  | none =>
    simp only [Option.isSome_none, Bool.false_eq_true, false_or, true_and]
    omega

/-- While no text so far was a valid answer, the loop condition holds. -/
theorem askAgain_of_none_valid (params : Prompt) (resp : Nat → String) (ev : Nat → List UIEvent)
    (i : Nat) (h : ∀ j, j < i → ¬ validAnswer params (resp j)) :
    askAgain params (stateAfter resp ev i) = true := by
  cases i with
  | zero => rfl
  | succ i => exact (askAgain_stateAfter_succ params resp ev i).mpr (h i (Nat.lt_succ_self i))

/-- After a valid answer the loop condition fails. -/
theorem askAgain_of_valid (params : Prompt) (resp : Nat → String) (ev : Nat → List UIEvent)
    (i : Nat) (h : validAnswer params (resp i)) :
    askAgain params (stateAfter resp ev (i + 1)) = false := by
  cases hb : askAgain params (stateAfter resp ev (i + 1)) with
  | false => rfl
  | true => exact absurd h ((askAgain_stateAfter_succ params resp ev i).mp hb)

/-- One test of the loop condition of `TerminalUI.Ask` after `i` turns. -/
theorem terminal_askLoop_succ (params : Prompt) (stdin : Nat → String) (fuel i : Nat) :
    TerminalUI.askLoop params stdin (fuel + 1) (stateAfter stdin (terminalTurn params stdin) i) =
      if askAgain params (stateAfter stdin (terminalTurn params stdin) i) = true then
        TerminalUI.askLoop params stdin fuel (stateAfter stdin (terminalTurn params stdin) (i + 1))
      else
        some { reply := (stateAfter stdin (terminalTurn params stdin) i).reply, err := none,
               reads := i, trace := (List.range i).flatMap (terminalTurn params stdin) } := by
  rw [TerminalUI.askLoop]
  simp [stateAfter_reads, stateAfter_trace, stateAfter, terminalTurn]

/-- The loop of `TerminalUI.Ask` goes through `i` turns when none of the first `i` responses
is a valid answer. -/
theorem terminal_askLoop_skip (params : Prompt) (stdin : Nat → String) (i fuel : Nat)
    (h : ∀ j, j < i → ¬ validAnswer params (stdin j)) :
    TerminalUI.askLoop params stdin (fuel + i) askInit =
      TerminalUI.askLoop params stdin fuel (stateAfter stdin (terminalTurn params stdin) i) := by
  induction i generalizing fuel with
  | zero => rfl
  | succ i ih =>
    have hi : ∀ j, j < i → ¬ validAnswer params (stdin j) :=
      fun j hj => h j (Nat.lt_succ_of_lt hj)
    rw [show fuel + (i + 1) = fuel + 1 + i by omega, ih (fuel + 1) hi, terminal_askLoop_succ,
      if_pos (askAgain_of_none_valid params stdin _ i hi)]

/-- A result of the loop of `TerminalUI.Ask` is a choice number and carries no error. -/
theorem terminal_askLoop_result (params : Prompt) (stdin : Nat → String) (fuel : Nat)
    (st : AskState) (r : AskResult) (h : TerminalUI.askLoop params stdin fuel st = some r) :
    1 ≤ r.reply ∧ r.reply ≤ (params.Choices.length : Int) ∧ r.err = none := by
  induction fuel generalizing st with
  | zero => simp [TerminalUI.askLoop] at h
  | succ fuel ih =>
    rw [TerminalUI.askLoop] at h
    by_cases hc : askAgain params st = true
    · rw [if_pos hc] at h
      exact ih _ h
    · rw [if_neg hc] at h
      simp only [Option.some.injEq] at h
      subst h
      simp only [askAgain, Bool.or_eq_true, decide_eq_true_eq, not_or, not_le, not_lt] at hc
      refine ⟨?_, ?_, rfl⟩ <;> dsimp only <;> omega

/-- C1: for every prompt and every sequence of responses on standard input, whenever
`TerminalUI.Ask` returns, the reply `r` satisfies `1 <= r <= len(prompt.Choices)` and the
error is nil. -/
theorem TerminalUI_Ask_reply_in_range (params : Prompt) (stdin : Nat → String) (fuel : Nat)
    (r : AskResult) (h : TerminalUI.Ask params stdin fuel = some r) :
    1 ≤ r.reply ∧ r.reply ≤ (params.Choices.length : Int) ∧ r.err = none :=
  terminal_askLoop_result params stdin fuel askInit r h

/-- On the sample input `TerminalUI.Ask` returns 2, which is within the two choices. -/
theorem TerminalUI_Ask_reply_in_range_witness :
    TerminalUI.Ask samplePrompt sampleStdin 4 =
        some { reply := 2, err := none, reads := 3,
               trace := (List.range 3).flatMap (terminalTurn samplePrompt sampleStdin) } ∧
      (1 ≤ (2 : Int) ∧ (2 : Int) ≤ (samplePrompt.Choices.length : Int) ∧
        (none : Option GoError) = none) :=
  ⟨by decide,
   TerminalUI_Ask_reply_in_range samplePrompt sampleStdin 4
     { reply := 2, err := none, reads := 3,
       trace := (List.range 3).flatMap (terminalTurn samplePrompt sampleStdin) } (by decide)⟩

/-- C5: let `k` be the least index such that the response `r_k`, trimmed, parses as an integer
`v` with `1 <= v <= n`. Then `TerminalUI.Ask` (given fuel for its `k + 2` tests of the loop
condition) prints the formatted prompt once before each of `r_0 .. r_k`, consumes exactly those
`k + 1` responses, and returns `v` with a nil error; and if no response is valid, `Ask` does not
return, whatever the fuel. -/
theorem TerminalUI_Ask_first_valid (params : Prompt) (stdin : Nat → String) :
    (∀ k, validAnswer params (stdin k) → (∀ j, j < k → ¬ validAnswer params (stdin j)) →
      ∀ fuel, k + 2 ≤ fuel →
        TerminalUI.Ask params stdin fuel =
          some { reply := (atoi (trimSpace (stdin k))).1, err := none, reads := k + 1,
                 trace := (List.range (k + 1)).flatMap fun i =>
                   [UIEvent.print (formatPrompt params), UIEvent.read (stdin i)] }) ∧
    ((∀ k, ¬ validAnswer params (stdin k)) →
      ∀ fuel, TerminalUI.Ask params stdin fuel = none) := by
  constructor
  · intro k hk hlt fuel hfuel
    obtain ⟨f, rfl⟩ : ∃ f, fuel = (f + 1 + 1) + k := ⟨fuel - (k + 2), by omega⟩
    rw [TerminalUI.Ask, terminal_askLoop_skip params stdin k (f + 1 + 1) hlt,
      terminal_askLoop_succ, if_pos (askAgain_of_none_valid params stdin _ k hlt),
      terminal_askLoop_succ, askAgain_of_valid params stdin _ k hk]
    rfl
  · intro hall fuel
    have h := terminal_askLoop_skip params stdin fuel 0 (fun j _ => hall j)
    rw [Nat.zero_add] at h
    rw [TerminalUI.Ask, h]
    rfl

/-- On the sample input the third response is the first valid one: three prompts, three reads,
reply 2; and on an input of empty lines only, `Ask` never returns. -/
theorem TerminalUI_Ask_first_valid_witness :
    TerminalUI.Ask samplePrompt sampleStdin 4 =
        some { reply := 2, err := none, reads := 3,
               trace := (List.range 3).flatMap fun i =>
                 [UIEvent.print (formatPrompt samplePrompt), UIEvent.read (sampleStdin i)] } ∧
      ∀ fuel, TerminalUI.Ask samplePrompt (fun _ => "\n") fuel = none :=
  ⟨(TerminalUI_Ask_first_valid samplePrompt sampleStdin).1 2 (by decide) (by decide) 4
      (by decide),
   (TerminalUI_Ask_first_valid samplePrompt (fun _ => "\n")).2 (fun _ => by decide)⟩

/-! ### The loop of `AskPassUI.Ask` -/

/-- The events of `n` turns of `AskPassUI.Ask`: the helper is run `n` times on the prompt. -/
theorem flatMap_helperTurn (params : Prompt) (n : Nat) :
    (List.range n).flatMap (helperTurn params) =
      List.replicate n (UIEvent.helper (formatPrompt params)) := by
  induction n with
  | zero => rfl
  | succ n ih =>
    rw [List.range_succ, List.flatMap_append, ih, List.replicate_succ']
    simp [helperTurn]

/-- One test of the loop condition of `AskPassUI.Ask` after `i` turns. -/
theorem askPass_askLoop_succ (params : Prompt) (helper : Nat → String → HelperOutcome)
    (fuel i : Nat) :
    AskPassUI.askLoop params helper (fuel + 1)
        (stateAfter (helperOut params helper) (helperTurn params) i) =
      if askAgain params (stateAfter (helperOut params helper) (helperTurn params) i) = true then
        match helperErr params helper i with
        | some e =>
          some { reply := (stateAfter (helperOut params helper) (helperTurn params) i).reply,
                 err := some e, reads := i + 1,
                 trace := List.replicate (i + 1) (UIEvent.helper (formatPrompt params)) }
        | none =>
          AskPassUI.askLoop params helper fuel
            (stateAfter (helperOut params helper) (helperTurn params) (i + 1))
      else
        some { reply := (stateAfter (helperOut params helper) (helperTurn params) i).reply,
               err := none, reads := i,
               trace := List.replicate i (UIEvent.helper (formatPrompt params)) } := by
  rw [AskPassUI.askLoop]
  simp only [stateAfter_reads, stateAfter_trace, flatMap_helperTurn, helperErr]
  split
  · cases h : (helper i (formatPrompt params)).err with
    | some e => simp [List.replicate_succ']
    | none => simp [stateAfter, helperOut, helperTurn, stateAfter_trace, flatMap_helperTurn]
  · rfl

/-- The loop of `AskPassUI.Ask` goes through `i` turns when each of the first `i` runs of the
helper succeeds with an answer that is not valid. -/
theorem askPass_askLoop_skip (params : Prompt) (helper : Nat → String → HelperOutcome)
    (i fuel : Nat)
    (h : ∀ j, j < i →
      helperErr params helper j = none ∧ ¬ validAnswer params (helperOut params helper j)) :
    AskPassUI.askLoop params helper (fuel + i) askInit =
      AskPassUI.askLoop params helper fuel
        (stateAfter (helperOut params helper) (helperTurn params) i) := by
  induction i generalizing fuel with
  | zero => rfl
  | succ i ih =>
    have hi : ∀ j, j < i →
        helperErr params helper j = none ∧ ¬ validAnswer params (helperOut params helper j) :=
      fun j hj => h j (Nat.lt_succ_of_lt hj)
    rw [show fuel + (i + 1) = fuel + 1 + i by omega, ih (fuel + 1) hi, askPass_askLoop_succ,
      if_pos (askAgain_of_none_valid params _ _ i (fun j hj => (hi j hj).2)),
      (h i (Nat.lt_succ_self i)).1]

/-- A result of `AskPassUI.Ask` that carries an error comes from a run of the helper that
failed after runs that all succeeded with an answer that is not valid. -/
theorem askPass_askLoop_error (params : Prompt) (helper : Nat → String → HelperOutcome)
    (fuel i : Nat) (r : AskResult)
    (hinv : ∀ j, j < i →
      helperErr params helper j = none ∧ ¬ validAnswer params (helperOut params helper j))
    (h : AskPassUI.askLoop params helper fuel
      (stateAfter (helperOut params helper) (helperTurn params) i) = some r)
    (herr : r.err ≠ none) :
    ∃ j, helperErr params helper j ≠ none ∧ ∀ i, i < j →
      helperErr params helper i = none ∧ ¬ validAnswer params (helperOut params helper i) := by
  induction fuel generalizing i with
  | zero => simp [AskPassUI.askLoop] at h
  | succ fuel ih =>
    rw [askPass_askLoop_succ] at h
    by_cases hc : askAgain params (stateAfter (helperOut params helper) (helperTurn params) i) = true
    · rw [if_pos hc] at h
      cases he : helperErr params helper i with
      | some e => exact ⟨i, by simp [he], hinv⟩
      | none =>
        simp only [he] at h
        by_cases hv : validAnswer params (helperOut params helper i)
        · cases fuel with
          | zero => simp [AskPassUI.askLoop] at h
          | succ fuel =>
            rw [askPass_askLoop_succ, askAgain_of_valid params _ _ i hv] at h
            simp only [Bool.false_eq_true, if_false, Option.some.injEq] at h
            subst h
            exact absurd rfl herr
        · refine ih (i + 1) (fun j hj => ?_) h
          rcases Nat.lt_succ_iff_lt_or_eq.mp hj with hlt | rfl
          · exact hinv j hlt
          · exact ⟨he, hv⟩
    · rw [if_neg hc] at h
      simp only [Option.some.injEq] at h
      subst h
      exact absurd rfl herr

/-- C6: `AskPassUI.Ask` returns a non-nil error if and only if a run of the helper fails before
any run has produced a valid answer; it then returns the error of that run at once, having run
the helper no further. Otherwise it runs the helper again after each answer that is not valid
and returns the first valid answer with a nil error. `TerminalUI.Ask` never returns a non-nil
error. -/
theorem AskPassUI_Ask_error_iff_helper_fails (params : Prompt)
    (helper : Nat → String → HelperOutcome) :
    ((∃ fuel r, AskPassUI.Ask params helper fuel = some r ∧ r.err ≠ none) ↔
      ∃ j, helperErr params helper j ≠ none ∧ ∀ i, i < j →
        ¬ (helperErr params helper i = none ∧
            validAnswer params (helperOut params helper i))) ∧
    (∀ j e, helperErr params helper j = some e →
      (∀ i, i < j →
        helperErr params helper i = none ∧ ¬ validAnswer params (helperOut params helper i)) →
      ∀ fuel, j + 1 ≤ fuel → ∃ reply,
        AskPassUI.Ask params helper fuel =
          some { reply := reply, err := some e, reads := j + 1,
                 trace := List.replicate (j + 1) (UIEvent.helper (formatPrompt params)) }) ∧
    (∀ k, helperErr params helper k = none → validAnswer params (helperOut params helper k) →
      (∀ i, i < k →
        helperErr params helper i = none ∧ ¬ validAnswer params (helperOut params helper i)) →
      ∀ fuel, k + 2 ≤ fuel →
        AskPassUI.Ask params helper fuel =
          some { reply := (atoi (trimSpace (helperOut params helper k))).1, err := none,
                 reads := k + 1,
                 trace := List.replicate (k + 1) (UIEvent.helper (formatPrompt params)) }) ∧
    (∀ stdin fuel r, TerminalUI.Ask params stdin fuel = some r → r.err = none) := by
  have hfail : ∀ j e, helperErr params helper j = some e →
      (∀ i, i < j →
        helperErr params helper i = none ∧ ¬ validAnswer params (helperOut params helper i)) →
      ∀ fuel, j + 1 ≤ fuel → ∃ reply,
        AskPassUI.Ask params helper fuel =
          some { reply := reply, err := some e, reads := j + 1,
                 trace := List.replicate (j + 1) (UIEvent.helper (formatPrompt params)) } := by
    intro j e he hlt fuel hfuel
    obtain ⟨f, rfl⟩ : ∃ f, fuel = (f + 1) + j := ⟨fuel - (j + 1), by omega⟩
    refine ⟨(stateAfter (helperOut params helper) (helperTurn params) j).reply, ?_⟩
    rw [AskPassUI.Ask, askPass_askLoop_skip params helper j (f + 1) hlt,
      askPass_askLoop_succ,
      if_pos (askAgain_of_none_valid params _ _ j (fun i hi => (hlt i hi).2)), he]
  refine ⟨⟨?_, ?_⟩, hfail, ?_, ?_⟩
  · rintro ⟨fuel, r, hr, herr⟩
    obtain ⟨j, hj, hlt⟩ := askPass_askLoop_error params helper fuel 0 r
      (fun j hj => absurd hj (Nat.not_lt_zero j)) hr herr
    exact ⟨j, hj, fun i hi hv => (hlt i hi).2 hv.2⟩
  · rintro ⟨j, hj, hlt⟩
    have hex : ∃ j, helperErr params helper j ≠ none := ⟨j, hj⟩
    have hle : Nat.find hex ≤ j := Nat.find_min' hex hj
    obtain ⟨e, he⟩ := Option.ne_none_iff_exists'.mp (Nat.find_spec hex)
    have hbefore : ∀ i, i < Nat.find hex →
        helperErr params helper i = none ∧
          ¬ validAnswer params (helperOut params helper i) := by
      intro i hi
      have h1 : helperErr params helper i = none := by
        by_contra hne
        exact Nat.find_min hex hi hne
      exact ⟨h1, fun hv => hlt i (lt_of_lt_of_le hi hle) ⟨h1, hv⟩⟩
    obtain ⟨reply, hreply⟩ := hfail (Nat.find hex) e he hbefore (Nat.find hex + 1) (le_refl _)
    exact ⟨_, _, hreply, by simp⟩
  · intro k hk hv hlt fuel hfuel
    obtain ⟨f, rfl⟩ : ∃ f, fuel = (f + 1 + 1) + k := ⟨fuel - (k + 2), by omega⟩
    rw [AskPassUI.Ask, askPass_askLoop_skip params helper k (f + 1 + 1) hlt,
      askPass_askLoop_succ,
      if_pos (askAgain_of_none_valid params _ _ k (fun i hi => (hlt i hi).2)), hk]
    simp only []
    rw [askPass_askLoop_succ, askAgain_of_valid params _ _ k hv]
    rfl
  · intro stdin fuel r h
    exact (terminal_askLoop_result params stdin fuel askInit r h).2.2

/-- With the helper that answers `0`, then `5`, then fails, `AskPassUI.Ask` returns the error of
the third run after three runs; with the helper that answers a word, then `1`, it returns 1
after two runs. -/
theorem AskPassUI_Ask_error_iff_helper_fails_witness :
    (∃ reply, AskPassUI.Ask samplePrompt sampleFailingHelper 3 =
        some { reply := reply, err := some "exit status 1", reads := 3,
               trace := List.replicate 3 (UIEvent.helper (formatPrompt samplePrompt)) }) ∧
      AskPassUI.Ask samplePrompt sampleHelper 3 =
        some { reply := (atoi (trimSpace (helperOut samplePrompt sampleHelper 1))).1,
               err := none, reads := 2,
               trace := List.replicate 2 (UIEvent.helper (formatPrompt samplePrompt)) } :=
  ⟨(AskPassUI_Ask_error_iff_helper_fails samplePrompt sampleFailingHelper).2.1 2
      "exit status 1" (by decide) (by decide) 3 (by decide),
   (AskPassUI_Ask_error_iff_helper_fails samplePrompt sampleHelper).2.2.1 1
      (by decide) (by decide) (by decide) 3 (by decide)⟩

/-! ### `AskPassUI.Confirm` -/

set_option maxRecDepth 100000 in
/-- The ASCII characters whose lower case is `y`, `e` or `s`. -/
theorem asciiLower_ofNat : ∀ n, n < 128 →
    ((asciiLower (Char.ofNat n) = 'y' ↔ (Char.ofNat n = 'y' ∨ Char.ofNat n = 'Y')) ∧
     (asciiLower (Char.ofNat n) = 'e' ↔ (Char.ofNat n = 'e' ∨ Char.ofNat n = 'E')) ∧
     (asciiLower (Char.ofNat n) = 's' ↔ (Char.ofNat n = 's' ∨ Char.ofNat n = 'S'))) := by
  decide

/-- When no rune outside ASCII has `y`, `e` or `s` for its lower case, the runes that
`unicode.ToLower` sends to one of these letters are the letter and its capital. -/
theorem toLowerRune_yes (table : Char → Char)
    (htable : ∀ c : Char, 127 < c.toNat → table c ≠ 'y' ∧ table c ≠ 'e' ∧ table c ≠ 's')
    (c : Char) :
    (toLowerRune table c = 'y' ↔ (c = 'y' ∨ c = 'Y')) ∧
    (toLowerRune table c = 'e' ↔ (c = 'e' ∨ c = 'E')) ∧
    (toLowerRune table c = 's' ↔ (c = 's' ∨ c = 'S')) := by
  by_cases h : c.toNat ≤ 127
  · have := asciiLower_ofNat c.toNat (by omega)
    rw [Char.ofNat_toNat] at this
    simpa [toLowerRune, h] using this
  · have hgt : 127 < c.toNat := by omega
    have hne : ∀ d : Char, d.toNat ≤ 127 → c ≠ d := by
      rintro d hd rfl
      exact h hd
    obtain ⟨h1, h2, h3⟩ := htable c hgt
    simp only [toLowerRune, h, if_false]
    refine ⟨⟨fun e => absurd e h1, ?_⟩, ⟨fun e => absurd e h2, ?_⟩, ⟨fun e => absurd e h3, ?_⟩⟩ <;>
    · rintro (e | e)
      · exact absurd e (hne _ (by decide))
      · exact absurd e (hne _ (by decide))

/-- Under the same condition on the case table, a text has `"yes"` for its lower case exactly
when it is `"yes"` up to the case of its letters. -/
theorem toLower_eq_yes (table : Char → Char)
    (htable : ∀ c : Char, 127 < c.toNat → table c ≠ 'y' ∧ table c ≠ 'e' ∧ table c ≠ 's')
    (s : String) :
    toLower table s = "yes" ↔ yesIgnoringCase s := by
  constructor
  · intro h
    have hd : s.data.map (toLowerRune table) = ['y', 'e', 's'] := congrArg String.data h
    have hlen : s.data.length = 3 := by
      have := congrArg List.length hd
      simpa using this
    obtain ⟨a, b, c, habc⟩ := List.length_eq_three.mp hlen
    have hs : s = ⟨[a, b, c]⟩ := String.ext habc
    rw [habc] at hd
    simp only [List.map_cons, List.map_nil, List.cons.injEq, and_true] at hd
    obtain ⟨ha, hb, hc⟩ := hd
    subst hs
    rcases (toLowerRune_yes table htable a).1.mp ha with rfl | rfl <;>
    rcases (toLowerRune_yes table htable b).2.1.mp hb with rfl | rfl <;>
    rcases (toLowerRune_yes table htable c).2.2.mp hc with rfl | rfl <;>
    decide
  · intro h
    simp only [yesIgnoringCase, List.mem_cons, List.mem_singleton, List.not_mem_nil,
      or_false] at h
    rcases h with rfl | rfl | rfl | rfl | rfl | rfl | rfl | rfl <;> rfl

/-- The sample case table sends no rune outside ASCII to `y`, `e` or `s`. -/
theorem sampleLowerTable_not_yes (c : Char) (h : 127 < c.toNat) :
    sampleLowerTable c ≠ 'y' ∧ sampleLowerTable c ≠ 'e' ∧ sampleLowerTable c ≠ 's' := by
  have hne : ∀ d : Char, d.toNat ≤ 127 → c ≠ d := by
    rintro d hd rfl
    omega
  unfold sampleLowerTable
  split_ifs
  · decide
  · decide
  · exact ⟨hne _ (by decide), hne _ (by decide), hne _ (by decide)⟩

/-- C2: `AskPassUI.Confirm` returns true when the helper succeeds and its output, trimmed, is
empty; true when the trimmed output is "yes" up to the case of its letters; false for every
other output; and false when the run of the helper fails. The case table of `unicode.ToLower`
is a parameter, of which the proof uses that no rune outside ASCII has `y`, `e` or `s` for its
lower case. -/
theorem AskPassUI_Confirm_tristate (table : Char → Char)
    (htable : ∀ c : Char, 127 < c.toNat → table c ≠ 'y' ∧ table c ≠ 'e' ∧ table c ≠ 's')
    (helper : String → HelperOutcome) (msg : String) :
    ((helper msg).err = none → trimSpace (helper msg).out = "" →
      AskPassUI.Confirm table helper msg = true) ∧
    ((helper msg).err = none → yesIgnoringCase (trimSpace (helper msg).out) →
      AskPassUI.Confirm table helper msg = true) ∧
    ((helper msg).err = none → trimSpace (helper msg).out ≠ "" →
      ¬ yesIgnoringCase (trimSpace (helper msg).out) →
      AskPassUI.Confirm table helper msg = false) ∧
    ((helper msg).err ≠ none → AskPassUI.Confirm table helper msg = false) := by
  have hlen : ∀ s : String, (toLower table s).length = 0 ↔ s = "" := by
    intro s
    constructor
    · intro h
      have h0 : (s.data.map (toLowerRune table)).length = 0 := h
      rw [List.length_map] at h0
      exact String.ext (List.length_eq_zero.mp h0)
    · rintro rfl
      rfl
  refine ⟨?_, ?_, ?_, ?_⟩
  · intro he hempty
    simp [AskPassUI.Confirm, he, hempty, (hlen "").mpr rfl]
  · intro he hyes
    simp [AskPassUI.Confirm, he, (toLower_eq_yes table htable _).mpr hyes]
  · intro he hne hno
    have h1 : ¬ (toLower table (trimSpace (helper msg).out)).length = 0 :=
      fun h => hne ((hlen _).mp h)
    have h2 : ¬ toLower table (trimSpace (helper msg).out) = "yes" :=
      fun h => hno ((toLower_eq_yes table htable _).mp h)
    simp [AskPassUI.Confirm, he, h1, h2]
  · intro he
    obtain ⟨e, he⟩ := Option.ne_none_iff_exists'.mp he
    simp [AskPassUI.Confirm, he]

/-- With the sample case table: an empty answer and ` YeS` confirm, `no` and a failed run of the
helper do not. -/
theorem AskPassUI_Confirm_tristate_witness :
    AskPassUI.Confirm sampleLowerTable (fun _ => { out := "\n", err := none }) "Allow?" = true ∧
    AskPassUI.Confirm sampleLowerTable (fun _ => { out := " YeS\n", err := none }) "Allow?"
      = true ∧
    AskPassUI.Confirm sampleLowerTable (fun _ => { out := "no\n", err := none }) "Allow?"
      = false ∧
    AskPassUI.Confirm sampleLowerTable (fun _ => { out := "yes\n", err := some "exit status 1" })
      "Allow?" = false :=
  ⟨(AskPassUI_Confirm_tristate sampleLowerTable sampleLowerTable_not_yes
      (fun _ => { out := "\n", err := none }) "Allow?").1 rfl (by decide),
   (AskPassUI_Confirm_tristate sampleLowerTable sampleLowerTable_not_yes
      (fun _ => { out := " YeS\n", err := none }) "Allow?").2.1 rfl (by decide),
   (AskPassUI_Confirm_tristate sampleLowerTable sampleLowerTable_not_yes
      (fun _ => { out := "no\n", err := none }) "Allow?").2.2.1 rfl (by decide) (by decide),
   (AskPassUI_Confirm_tristate sampleLowerTable sampleLowerTable_not_yes
      (fun _ => { out := "yes\n", err := some "exit status 1" }) "Allow?").2.2.2 (by decide)⟩

/-! ### `main`: the choice of the prompt kind in forwarding mode -/

/-- In forwarding mode without `-d`, once the host argument is there, the log is set up and the
current user is known, `main` is its forwarding branch. -/
theorem main_eq_mainForward (f : Flags) (env : Env) (arg : String) (rest : List String)
    (u : String) (hargs : f.args = arg :: rest)
    (hlog : f.debug = true → f.logFile ≠ "" → env.openLog f.logFile = none)
    (huser : env.currentUser = Except.ok u)
    (hd : f.delegatedClient = false) (hA : f.forwardAgent = true) :
    main f env =
      mainForward f env
        [Event.log ("Host: " ++ (resolveTarget arg u).2 ++ ", Port: " ++ decimalInt f.port ++
          ", User: " ++ (resolveTarget arg u).1 ++ "\n")]
        (resolveTarget arg u).2 (resolveTarget arg u).1
        (if rest.length ≥ 1 then String.intercalate " " rest else "") := by
  have hopen : (if f.debug = true ∧ f.logFile ≠ "" then env.openLog f.logFile else none) =
      none := by
    split_ifs with h
    · exact hlog h.1 h.2
    · rfl
  simp only [main, hargs, hopen, huser, hd, hA]
  simp

/-- The forwarding branch with `-N` and a prompt type other than `DISPLAY`: the agent is created
with the terminal kind, and the run does not depend on `DISPLAY`. -/
theorem mainForward_terminal (f : Flags) (env : Env) (events : List Event)
    (host username cmd : String) (h : f.noCommand = true ∧ f.promptType ≠ "DISPLAY") :
    (∀ d, mainForward f { env with display := d } events host username cmd =
      mainForward f env events host username cmd) ∧
    Event.agentNew (env.expandEnv f.policyConfig) PromptKind.Terminal ∈
      (mainForward f env events host username cmd).events := by
  constructor
  · intro d
    simp only [mainForward, h, ne_eq, not_false_eq_true, and_self, if_true]
  · simp only [mainForward, h, ne_eq, not_false_eq_true, and_self, if_true]
    cases env.agentNew (env.expandEnv f.policyConfig) PromptKind.Terminal with
    | some err => simp
    | none =>
      cases env.shellSplit f.sshArgs with
      | error err => simp
      | ok sshArgsArray =>
        simp only []
        cases env.setupForwarding _ <;> simp

/-- The forwarding branch adds no event that creates the agent with a kind other than the one
it chose, and none at all when it stops for want of `DISPLAY`. -/
theorem mainForward_agentNew (f : Flags) (env : Env) (events : List Event)
    (host username cmd : String) (p : String) (k : PromptKind)
    (hmem : Event.agentNew p k ∈ (mainForward f env events host username cmd).events) :
    Event.agentNew p k ∈ events ∨
      (k = PromptKind.Terminal ∧ f.noCommand = true ∧ f.promptType ≠ "DISPLAY") ∨
      (k = PromptKind.Display ∧ ¬ (f.noCommand = true ∧ f.promptType ≠ "DISPLAY") ∧
        env.display ≠ "") := by
  unfold mainForward at hmem
  by_cases h : f.noCommand = true ∧ f.promptType ≠ "DISPLAY"
  · simp only [h, ne_eq, not_false_eq_true, and_self, if_true] at hmem
    revert hmem
    cases env.agentNew (env.expandEnv f.policyConfig) PromptKind.Terminal with
    | some err => simp; tauto
    | none =>
      cases env.shellSplit f.sshArgs with
      | error err => simp; tauto
      | ok sshArgsArray =>
        simp only []
        cases env.setupForwarding _ <;> (simp; tauto)
  · simp only [if_neg h] at hmem
    by_cases hdisp : env.display = ""
    · simp only [if_pos hdisp] at hmem
      simp at hmem
      exact Or.inl hmem
    · simp only [if_neg hdisp] at hmem
      revert hmem
      cases env.agentNew (env.expandEnv f.policyConfig) PromptKind.Display with
      | some err => simp; tauto
      | none =>
        cases env.shellSplit f.sshArgs with
        | error err => simp; tauto
        | ok sshArgsArray =>
          simp only []
          cases env.setupForwarding _ <;> (simp; tauto)

/-- The forwarding branch without the `-N` exemption and with an empty `DISPLAY`: a message on
standard error and exit status 255, nothing else. -/
theorem mainForward_no_display (f : Flags) (env : Env) (events : List Event)
    (host username cmd : String) (h : ¬ (f.noCommand = true ∧ f.promptType ≠ "DISPLAY"))
    (hdisp : env.display = "") :
    mainForward f env events host username cmd =
      { events := events ++ [Event.stderr ("DISPLAY must be set for user prompts.\n" ++
          "Either set the DISPLAY environment variable or use -N.")],
        ending := Ending.exit 255 } := by
  simp only [mainForward, if_neg h, if_pos hdisp]

/-- The forwarding branch without the `-N` exemption and with `DISPLAY` set: the agent is
created with the display kind. -/
theorem mainForward_display (f : Flags) (env : Env) (events : List Event)
    (host username cmd : String) (h : ¬ (f.noCommand = true ∧ f.promptType ≠ "DISPLAY"))
    (hdisp : env.display ≠ "") :
    Event.agentNew (env.expandEnv f.policyConfig) PromptKind.Display ∈
      (mainForward f env events host username cmd).events := by
  simp only [mainForward, if_neg h, if_neg hdisp]
  cases env.agentNew (env.expandEnv f.policyConfig) PromptKind.Display with
  | some err => simp
  | none =>
    cases env.shellSplit f.sshArgs with
    | error err => simp
    | ok sshArgsArray =>
      simp only []
      cases env.setupForwarding _ <;> simp

/-- C7: in forwarding mode (`-A` without `-d`), for every value of `-N`, of `-prompt` and of
`DISPLAY`: the terminal prompt kind is selected, without `DISPLAY` being consulted, exactly when
`-N` is set and `-prompt` is not `DISPLAY`; in every other case an empty `DISPLAY` makes the
program exit with status 255 before the policy agent is created or forwarding is set up, and a
non-empty `DISPLAY` selects the display prompt kind. -/
theorem main_forwarding_prompt_kind (f : Flags) (env : Env) (arg : String) (rest : List String)
    (u : String) (hargs : f.args = arg :: rest)
    (hlog : f.debug = true → f.logFile ≠ "" → env.openLog f.logFile = none)
    (huser : env.currentUser = Except.ok u)
    (hd : f.delegatedClient = false) (hA : f.forwardAgent = true) :
    (f.noCommand = true ∧ f.promptType ≠ "DISPLAY" →
      (∀ d, main f { env with display := d } = main f env) ∧
      Event.agentNew (env.expandEnv f.policyConfig) PromptKind.Terminal ∈ (main f env).events) ∧
    (¬ (f.noCommand = true ∧ f.promptType ≠ "DISPLAY") → env.display = "" →
      (main f env).ending = Ending.exit 255 ∧
      (∀ p k, Event.agentNew p k ∉ (main f env).events) ∧
      (∀ fwd, Event.setupForwarding fwd ∉ (main f env).events)) ∧
    (¬ (f.noCommand = true ∧ f.promptType ≠ "DISPLAY") → env.display ≠ "" →
      Event.agentNew (env.expandEnv f.policyConfig) PromptKind.Display ∈ (main f env).events) ∧
    (∀ p k, Event.agentNew p k ∈ (main f env).events →
      (k = PromptKind.Terminal ↔ (f.noCommand = true ∧ f.promptType ≠ "DISPLAY"))) := by
  have hmain := main_eq_mainForward f env arg rest u hargs hlog huser hd hA
  refine ⟨?_, ?_, ?_, ?_⟩
  · intro h
    refine ⟨fun d => ?_, ?_⟩
    · rw [hmain, main_eq_mainForward f { env with display := d } arg rest u hargs hlog huser hd hA]
      exact (mainForward_terminal f env _ _ _ _ h).1 d
    · rw [hmain]
      exact (mainForward_terminal f env _ _ _ _ h).2
  · intro h hdisp
    rw [hmain, mainForward_no_display f env _ _ _ _ h hdisp]
    simp
  · intro h hdisp
    rw [hmain]
    exact mainForward_display f env _ _ _ _ h hdisp
  · intro p k hmem
    rw [hmain] at hmem
    rcases mainForward_agentNew f env _ _ _ _ p k hmem with h | h | h
    · simp at h
    · exact ⟨fun _ => h.2, fun _ => h.1⟩
    · constructor
      · intro hk
        rw [h.1] at hk
        exact absurd hk (by decide)
      · intro hc
        exact absurd hc h.2.1

/-- The invocation `-A -N host` with `DISPLAY` unset creates the agent with the terminal kind,
and `-A -N -prompt=DISPLAY host` with `DISPLAY` unset exits with status 255. -/
theorem main_forwarding_prompt_kind_witness :
    Event.agentNew "$HOME/.ssh/agent_policies" PromptKind.Terminal ∈
        (main { forwardAgent := true, noCommand := true, args := ["host"] }
          (sampleEnv "")).events ∧
      (main { forwardAgent := true, noCommand := true, promptType := "DISPLAY",
              args := ["host"] } (sampleEnv "")).ending = Ending.exit 255 :=
  ⟨((main_forwarding_prompt_kind
        { forwardAgent := true, noCommand := true, args := ["host"] } (sampleEnv "")
        "host" [] "alice" rfl (fun h => absurd h (by decide)) rfl rfl rfl).1
      ⟨rfl, by decide⟩).2,
   ((main_forwarding_prompt_kind
        { forwardAgent := true, noCommand := true, promptType := "DISPLAY", args := ["host"] }
        (sampleEnv "") "host" [] "alice" rfl (fun h => absurd h (by decide)) rfl rfl rfl).2.1
      (by decide) rfl).1⟩

/-! ### `main`: delegated mode and the target -/

/-- With `-d` and one of `-A`, `-N` or a `-ssh` command other than `ssh`, once the host argument
is there, the log is set up and the current user is known, `main` stops in `log.Fatalf`: the
exit status is 1 and the delegated client is not run. -/
theorem main_delegated_conflict (f : Flags) (env : Env) (arg : String) (rest : List String)
    (u : String) (hargs : f.args = arg :: rest)
    (hlog : f.debug = true → f.logFile ≠ "" → env.openLog f.logFile = none)
    (huser : env.currentUser = Except.ok u)
    (hd : f.delegatedClient = true)
    (hc : f.sshCmd ≠ "ssh" ∨ f.forwardAgent = true ∨ f.noCommand = true) :
    (main f env).ending = Ending.exit 1 ∧
      ∀ hostPort username cmd, Event.delegatedRun hostPort username cmd ∉ (main f env).events := by
  have hopen : (if f.debug = true ∧ f.logFile ≠ "" then env.openLog f.logFile else none) =
      none := by
    split_ifs with h
    · exact hlog h.1 h.2
    · rfl
  simp only [main, hargs, hopen, huser, hd, mainDelegated, logFatalf]
  by_cases h1 : f.sshCmd ≠ "ssh"
  · simp [h1]
  · by_cases h2 : f.forwardAgent = true
    · simp [h1, h2]
    · have h3 : f.noCommand = true := by tauto
      simp [h1, h2, h3]

/-- C8: the claim is that `-d` with `-A`, `-N` or another `-ssh` command ends in a configuration
error with exit status 255 before the delegated client is run. On the invocation `-d -A host`
the message of `log.Fatalf` goes to the logger and the process exits with status 1, not 255;
the delegated client is not run. -/
theorem main_d_A_host_exits_1 :
    main { delegatedClient := true, forwardAgent := true, args := ["host"] } (sampleEnv "") =
      { events := [Event.log "Host: host, Port: 22, User: alice\n",
                   Event.log "agent forwarding (-A) is not supported in delegated mode (-d)"],
        ending := Ending.exit 1 } := by
  decide

/-- A text without the separator is a single piece. -/
theorem splitChars_of_not_mem (sep : Char) (cs : List Char) (h : sep ∉ cs) :
    splitChars sep cs = [cs] := by
  induction cs with
  | nil => rfl
  | cons c cs ih =>
    have hc : c ≠ sep := fun e => h (e ▸ List.mem_cons_self _ _)
    have hcs : sep ∉ cs := fun hm => h (List.mem_cons_of_mem _ hm)
    simp [splitChars, hc, ih hcs]

/-- Splitting never gives an empty list of pieces. -/
theorem splitChars_ne_nil (sep : Char) (cs : List Char) : splitChars sep cs ≠ [] := by
  cases cs with
  | nil => simp [splitChars]
  | cons c cs =>
    by_cases hc : c = sep
    · simp [splitChars, hc]
    · simp only [splitChars, hc, if_false]
      cases splitChars sep cs <;> simp

/-- The first piece of a text ends at the first separator. -/
theorem splitChars_append (sep : Char) (a b : List Char) (h : sep ∉ a) :
    splitChars sep (a ++ sep :: b) = a :: splitChars sep b := by
  induction a with
  | nil => simp [splitChars]
  | cons c a ih =>
    have hc : c ≠ sep := fun e => h (e ▸ List.mem_cons_self _ _)
    have ha : sep ∉ a := fun hm => h (List.mem_cons_of_mem _ hm)
    simp [splitChars, hc, ih ha]

/-- The first piece of a text is what comes before its first separator. -/
theorem splitChars_head (sep : Char) (cs : List Char) :
    ∃ pieces, splitChars sep cs = cs.takeWhile (fun c => c ≠ sep) :: pieces := by
  induction cs with
  | nil => exact ⟨[], rfl⟩
  | cons c cs ih =>
    obtain ⟨pieces, hp⟩ := ih
    by_cases hc : c = sep
    · exact ⟨splitChars sep cs, by simp [splitChars, hc]⟩
    · exact ⟨pieces, by simp [splitChars, hc, hp]⟩

/-- What `main` resolves from an argument without `@`: the current user and the argument. -/
theorem resolveTarget_without_at (arg curUsername : String) (h : '@' ∉ arg.data) :
    resolveTarget arg curUsername = (curUsername, arg) := by
  simp [resolveTarget, splitAtSign, splitChars_of_not_mem '@' arg.data h]

/-- What `main` resolves from an argument with `@`: the user is what comes before the first
`@`, the host is what comes between the first `@` and the next one (or the end). -/
theorem resolveTarget_with_at (a b : List Char) (curUsername : String) (h : '@' ∉ a) :
    resolveTarget ⟨a ++ '@' :: b⟩ curUsername =
      (⟨a⟩, ⟨b.takeWhile (fun c => c ≠ '@')⟩) := by
  obtain ⟨pieces, hp⟩ := splitChars_head '@' b
  simp [resolveTarget, splitAtSign, splitChars_append '@' a b h, hp]

/-- C9: the claim is that the host is what follows the last `@` of the argument. On the argument
`alice@proxy@host` the user that `main` resolves is `alice` and the host is `proxy`, which is
not what comes after the last `@`. -/
theorem resolveTarget_two_at_signs :
    resolveTarget "alice@proxy@host" "bob" = ("alice", "proxy") ∧
      (resolveTarget "alice@proxy@host" "bob").2 ≠ "host" := by
  decide

/-! ### The accept loop -/

/-- The loop of `main` when no other thread steps in between: it goes on after every `Accept()`
that succeeds and ends at the first one that fails, which is call number `k` from the state `s`;
it then leaves the loop when `done` is set and exits with status 255 when `done` is unset. -/
theorem runSchedule_loop_alone (o : Oracle) (k : Nat) (e : GoError) (s : LoopState)
    (hpc : s.loop = LoopPc.accept)
    (hok : ∀ j, j < k → (o.accept (s.accepts + j)).2 = none)
    (hfail : (o.accept (s.accepts + k)).2 = some e) :
    ∃ s', runSchedule o (List.replicate (2 * k + 2) Thread.loop) s = some s' ∧
      s'.accepts = s.accepts + k + 1 ∧ s'.done = s.done ∧
      s'.loop = if s.done then LoopPc.left else LoopPc.exited 255 := by
  induction k generalizing s with
  | zero =>
    rw [Nat.add_zero] at hfail
    cases hdone : s.done <;>
      simp [runSchedule, step, stepLoop, hpc, hfail, hdone, List.replicate]
  | succ k ih =>
    have h0 : (o.accept s.accepts).2 = none := by simpa using hok 0 (Nat.succ_pos k)
    obtain ⟨s', hrun, hacc, hdone, hloop⟩ :=
      ih { s with c := (o.accept s.accepts).1, err := none, accepts := s.accepts + 1,
                  handlers := s.handlers ++ [HandlerPc.call], loop := LoopPc.accept }
        rfl
        (fun j hj => by
          have := hok (j + 1) (Nat.succ_lt_succ hj)
          simpa [Nat.add_assoc, Nat.add_comm 1 j] using this)
        (by simpa [Nat.add_assoc, Nat.add_comm 1 k] using hfail)
    refine ⟨s', ?_, ?_, hdone, hloop⟩
    · rw [show 2 * (k + 1) + 2 = (2 * k + 2) + 1 + 1 by omega, List.replicate_succ,
        List.replicate_succ]
      simp only [runSchedule, step, stepLoop, hpc, h0]
      exact hrun
    · simp only at hacc
      omega

/-- C4: the claim is that an error of `HandleConnection` is only logged, in every interleaving.
The handler of connection 0 fails while the loop has accepted connection 1: its result
lands in `err` between the `Accept()` of the loop and the test of `err`, and the process exits
with status 255, though every `Accept()` succeeded and `done` was never set. -/
theorem handler_error_exits_process :
    (∀ i, (handlerFailsOracle.accept i).2 = none) ∧
      runSchedule handlerFailsOracle raceSchedule (loopInit true) =
        some { c := some 1, err := some "agent: connection 0 failed", done := false,
               loop := LoopPc.exited 255, accepts := 2, handlers := [HandlerPc.test],
               worker := WorkerPc.absent,
               log := ["Error forwarding: agent: connection 0 failed"],
               handled := [some 0] } :=
  ⟨fun _ => rfl, by decide⟩

/-- C3: the claim is that the loop ends at the first `Accept()` that fails and nowhere else.
The second `Accept()` fails with `done` unset while the handler of connection 0 returns nil:
the nil lands in `err` between the `Accept()` of the loop and the test of `err`, and the loop
does not end at the failure: it starts a handler on the nil connection and is back at
`Accept()`. -/
theorem accept_failure_overwritten :
    (acceptFailsOracle.accept 1).2 = some "channel closed" ∧
      runSchedule acceptFailsOracle raceSchedule (loopInit true) =
        some { c := none, err := none, done := false, loop := LoopPc.accept, accepts := 2,
               handlers := [HandlerPc.test, HandlerPc.call], worker := WorkerPc.absent,
               log := [], handled := [some 0] } :=
  ⟨rfl, by decide⟩


end GuardianAgent
